import Mathlib

/-!
Shallow embedding of the hyperscape level-up notification pipeline and of the
native-shell (Tauri) integration module, together with theorems checking the
specification claims against the embedded code.

Sources embedded:
- src/game/hud/level-up/useLevelUpState.ts (queue, promotion, dismissal)
- src/game/hud/level-up/LevelUpNotification.tsx (side-effect dispatcher)
- src/game/hud/level-up/utils.ts (normalizeSkillName, capitalizeSkill)
- src/game/hud/level-up/levelUpAudio.ts (isMilestoneLevel)
- the Tauri integration module (getPlatformInfo, openExternalUrl, onDeepLink,
  parseOAuthCallback)

JS numbers used as integers are modelled as Int (levels) and Nat
(timestamps); audio gain values are modelled as Rat.  The basic-latin
behaviour of the JS string primitives (toLowerCase, toUpperCase, whitespace)
is modelled with Char.toLower, Char.toUpper and Char.isWhitespace.
-/

/-- LevelUpEvent from useLevelUpState.ts: the queued popup event. -/
structure LevelUpEvent where
  skill : String
  oldLevel : Int
  newLevel : Int
  timestamp : Nat
deriving Repr, DecidableEq

/-- SkillsLevelUpEvent payload delivered by the event bus; the source may omit
the timestamp, hence the Option. -/
structure SkillsLevelUpEvent where
  skill : String
  oldLevel : Int
  newLevel : Int
  timestamp : Option Nat
deriving Repr, DecidableEq

/-- State held by the useLevelUpState hook: the pending queue and the item
currently being shown. -/
structure LevelUpState where
  levelUpQueue : List LevelUpEvent
  currentLevelUp : Option LevelUpEvent
deriving Repr, DecidableEq

/-- Event built by handleLevelUp: the payload fields with the timestamp falling
back to the receipt time (data.timestamp with Date.now() as default). -/
def mkLevelUpEvent (data : SkillsLevelUpEvent) (now : Nat) : LevelUpEvent :=
  { skill := data.skill
    oldLevel := data.oldLevel
    newLevel := data.newLevel
    timestamp := data.timestamp.getD now }

/-- handleLevelUp from useLevelUpState.ts: builds the event and appends it to
the queue tail (prev.concat(event)). -/
def handleLevelUp (s : LevelUpState) (data : SkillsLevelUpEvent) (now : Nat) :
    LevelUpState :=
  { s with levelUpQueue := s.levelUpQueue ++ [mkLevelUpEvent data now] }

/-- Queue-processing effect of useLevelUpState.ts: when nothing is currently
shown and the queue is non-empty, move the head of the queue into the current
slot (setCurrentLevelUp(levelUpQueue[0]); setLevelUpQueue(levelUpQueue.slice(1))). -/
def promoteLevelUp (s : LevelUpState) : LevelUpState :=
  match s.currentLevelUp, s.levelUpQueue with
  | none, e :: rest => { levelUpQueue := rest, currentLevelUp := some e }
  | _, _ => s

/-- dismissLevelUp from useLevelUpState.ts: unconditionally clears the current
item (setCurrentLevelUp(null)). -/
def dismissLevelUp (s : LevelUpState) : LevelUpState :=
  { s with currentLevelUp := none }

/-- The hook mounts with an empty queue and nothing shown. -/
def initialLevelUpState : LevelUpState :=
  { levelUpQueue := [], currentLevelUp := none }

/-- Deliver a list of bus events in order, each paired with its receipt time. -/
def enqueueAll (s : LevelUpState) : List (SkillsLevelUpEvent × Nat) → LevelUpState
  | [] => s
  | (d, now) :: rest => enqueueAll (handleLevelUp s d now) rest

/-- Repeated observe cycle of the consumer: run the promotion effect, read the
current item, dismiss it, and continue.  Fuel bounds the number of cycles; the
queue length plus one suffices to drain everything. -/
def drainLoop : Nat → LevelUpState → List LevelUpEvent
  | 0, _ => []
  | fuel + 1, s =>
    let s' := promoteLevelUp s
    match s'.currentLevelUp with
    | none => []
    | some e => e :: drainLoop fuel (dismissLevelUp s')

theorem enqueueAll_eq (ds : List (SkillsLevelUpEvent × Nat)) (s : LevelUpState) :
    enqueueAll s ds =
      { s with levelUpQueue :=
          s.levelUpQueue ++ ds.map (fun p => mkLevelUpEvent p.1 p.2) } := by
  induction ds generalizing s with
  | nil => simp [enqueueAll]
  | cons d rest ih =>
    obtain ⟨data, now⟩ := d
    simp [enqueueAll, handleLevelUp, ih]

theorem drainLoop_drains (q : List LevelUpEvent) :
    drainLoop (q.length + 1) { levelUpQueue := q, currentLevelUp := none } = q := by
  induction q with
  | nil => simp [drainLoop, promoteLevelUp]
  | cons e rest ih =>
    simp [drainLoop, promoteLevelUp, dismissLevelUp]
    exact ih

/-- C1: FIFO order.  For every sequence of level-up events enqueued via
handleLevelUp into the freshly mounted hook state, repeatedly promoting (only
when nothing is current and the queue is non-empty), reading the current item
and dismissing it yields the events in exactly the order they were enqueued. -/
theorem levelUp_fifo_order (ds : List (SkillsLevelUpEvent × Nat)) :
    drainLoop ((enqueueAll initialLevelUpState ds).levelUpQueue.length + 1)
        (enqueueAll initialLevelUpState ds) =
      ds.map (fun p => mkLevelUpEvent p.1 p.2) := by
  rw [enqueueAll_eq]
  simpa [initialLevelUpState] using
    drainLoop_drains (ds.map (fun p => mkLevelUpEvent p.1 p.2))

/-- C4: dismissLevelUp unconditionally sets the current item to none and leaves
the queue untouched; when nothing is current it is a no-op, and promotion from
an empty queue promotes nothing. -/
theorem dismissLevelUp_spec (s : LevelUpState) :
    (dismissLevelUp s).currentLevelUp = none ∧
    (dismissLevelUp s).levelUpQueue = s.levelUpQueue ∧
    (s.currentLevelUp = none → dismissLevelUp s = s) ∧
    (s.levelUpQueue = [] →
      promoteLevelUp (dismissLevelUp s) = dismissLevelUp s) := by
  refine ⟨rfl, rfl, ?_, ?_⟩
  · intro h
    cases s
    simp_all [dismissLevelUp]
  · intro h
    cases s
    simp_all [dismissLevelUp, promoteLevelUp]

/-- Witness for C4: at the freshly mounted state, dismiss is a no-op and does
not promote from the empty queue. -/
theorem dismissLevelUp_spec_witness :
    dismissLevelUp initialLevelUpState = initialLevelUpState ∧
    promoteLevelUp (dismissLevelUp initialLevelUpState) =
      dismissLevelUp initialLevelUpState :=
  ⟨(dismissLevelUp_spec initialLevelUpState).2.2.1 rfl,
   (dismissLevelUp_spec initialLevelUpState).2.2.2 rfl⟩

/-- MILESTONE_LEVELS from levelUpAudio.ts. -/
def MILESTONE_LEVELS : List Int := [10, 25, 50, 75, 99]

/-- isMilestoneLevel from levelUpAudio.ts: membership in MILESTONE_LEVELS. -/
def isMilestoneLevel (level : Int) : Bool :=
  MILESTONE_LEVELS.contains level

/-- C5: isMilestoneLevel is true exactly on 10, 25, 50, 75 and 99, and false on
every other integer; in particular it is false at 100. -/
theorem isMilestoneLevel_iff (level : Int) :
    (isMilestoneLevel level = true ↔
      level = 10 ∨ level = 25 ∨ level = 50 ∨ level = 75 ∨ level = 99) ∧
    isMilestoneLevel 100 = false := by
  constructor
  · simp [isMilestoneLevel, MILESTONE_LEVELS, List.contains]
  · decide

theorem char_toNat_ofNat_of_lt {n : Nat} (h : n < 55296) :
    (Char.ofNat n).toNat = n := by
  have hv : n.isValidChar := Or.inl h
  rw [Char.ofNat, dif_pos hv]
  rfl

theorem char_eq_iff_toNat {c d : Char} : c = d ↔ c.toNat = d.toNat :=
  ⟨fun h => h ▸ rfl, fun h => Char.ext (UInt32.ext h)⟩

theorem char_toNat_toLower (c : Char) :
    c.toLower.toNat =
      if c.toNat ≥ 65 ∧ c.toNat ≤ 90 then c.toNat + 32 else c.toNat := by
  show (Char.toLower c).toNat = _
  simp only [Char.toLower]
  split
  · exact char_toNat_ofNat_of_lt (by omega)
  · rfl

theorem char_toNat_toUpper (c : Char) :
    c.toUpper.toNat =
      if c.toNat ≥ 97 ∧ c.toNat ≤ 122 then c.toNat - 32 else c.toNat := by
  show (Char.toUpper c).toNat = _
  simp only [Char.toUpper]
  split
  · exact char_toNat_ofNat_of_lt (by omega)
  · rfl

theorem char_isWhitespace_iff (c : Char) :
    c.isWhitespace = true ↔
      c.toNat = 32 ∨ c.toNat = 9 ∨ c.toNat = 13 ∨ c.toNat = 10 := by
  show (c = ' ' || c = '\t' || c = '\r' || c = '\n') = true ↔ _
  simp only [Bool.or_eq_true, decide_eq_true_eq, char_eq_iff_toNat,
    show Char.toNat ' ' = 32 from rfl, show Char.toNat '\t' = 9 from rfl,
    show Char.toNat '\r' = 13 from rfl, show Char.toNat '\n' = 10 from rfl]
  tauto

theorem char_isWhitespace_toLower (c : Char) :
    c.toLower.isWhitespace = c.isWhitespace := by
  rw [Bool.eq_iff_iff, char_isWhitespace_iff, char_isWhitespace_iff,
    char_toNat_toLower]
  split <;> omega

theorem char_toLower_toLower (c : Char) :
    c.toLower.toLower = c.toLower := by
  rw [char_eq_iff_toNat, char_toNat_toLower, char_toNat_toLower]
  split_ifs <;> omega

theorem char_toUpper_toLower (c : Char) :
    c.toLower.toUpper = c.toUpper := by
  rw [char_eq_iff_toNat, char_toNat_toUpper, char_toNat_toUpper,
    char_toNat_toLower]
  split_ifs <;> omega

/-- normalizeSkillName from utils.ts: lowercase the string, then remove every
whitespace character (the regex removes each whitespace run). -/
def normalizeSkillName (skill : String) : String :=
  ⟨(skill.data.map Char.toLower).filter (fun c => !c.isWhitespace)⟩

/-- capitalizeSkill from utils.ts: uppercase the first character and lowercase
the remainder; the empty string is returned unchanged. -/
def capitalizeSkill (skill : String) : String :=
  match skill.data with
  | [] => ""
  | c :: rest => ⟨c.toUpper :: rest.map Char.toLower⟩

/-- Spec-side statement of the C6 formatting law: the space-stripped form of
the input with its first character uppercased and all remaining characters
lowercased. -/
def specStripCapitalize (s : String) : String :=
  match s.data.filter (fun c => !c.isWhitespace) with
  | [] => ""
  | c :: rest => ⟨c.toUpper :: rest.map Char.toLower⟩

theorem normalizeSkillName_data (s : String) :
    (normalizeSkillName s).data =
      (s.data.filter (fun c => !c.isWhitespace)).map Char.toLower := by
  show (s.data.map Char.toLower).filter (fun c => !c.isWhitespace) = _
  rw [List.filter_map]
  have hf : ((fun c => !c.isWhitespace) ∘ Char.toLower) =
      (fun c : Char => !c.isWhitespace) := by
    funext c
    simp [Function.comp, char_isWhitespace_toLower]
  rw [hf]

/-- C6: formatting law.  Composing capitalizeSkill with normalizeSkillName
yields the space-stripped form of the input with its first character
uppercased and the remaining characters lowercased; in particular the
composite maps the string Hit Points to Hitpoints. -/
theorem capitalizeSkill_normalizeSkillName (s : String) :
    capitalizeSkill (normalizeSkillName s) = specStripCapitalize s ∧
    capitalizeSkill (normalizeSkillName "Hit Points") = "Hitpoints" := by
  refine ⟨?_, by decide⟩
  unfold capitalizeSkill specStripCapitalize
  rw [normalizeSkillName_data]
  cases h : s.data.filter (fun c => !c.isWhitespace) with
  | nil => rfl
  | cons c rest =>
    simp only [List.map_cons]
    congr 1
    rw [char_toUpper_toLower, List.map_map]
    have hm : (Char.toLower ∘ Char.toLower) = Char.toLower := by
      funext d
      exact char_toLower_toLower d
    rw [hm]

/-- ChatMessage record built by the dispatcher.  The createdAt field of the
source is the ISO rendering of the same instant as timestamp; it is modelled
by that instant. -/
structure ChatMessage where
  id : String
  «from» : String
  body : String
  text : String
  timestamp : Nat
  createdAt : Nat
deriving Repr, DecidableEq

/-- Message body built in LevelUpNotification.tsx from the current item. -/
def levelUpChatBody (ev : LevelUpEvent) : String :=
  "Congratulations! You\x27ve advanced a " ++ capitalizeSkill ev.skill ++
    " level. You are now level " ++ toString ev.newLevel ++ "."

/-- Chat message built in LevelUpNotification.tsx: empty sender, body and text
share the formatted string, timestamp and createdAt share one instant. -/
def mkLevelUpChatMessage (ev : LevelUpEvent) (id : String) (now : Nat) :
    ChatMessage :=
  { id := id
    «from» := ""
    body := levelUpChatBody ev
    text := levelUpChatBody ev
    timestamp := now
    createdAt := now }

/-- Model of the resolved audio capability.  sfxGainValue models the optional
chain audio.groupGains?.sfx?.gain?.value (none when any link is missing);
readyResult models whether the audio.ready scheduling call throws. -/
structure AudioCap where
  sfxGainValue : Option Rat
  readyResult : Except String Unit

/-- Model of the resolved chat capability; addResult models whether chat.add
throws. -/
structure ChatCap where
  addResult : Except String Unit

/-- Observable side effects of one dispatch: a fanfare scheduled for a level,
or a chat message appended with its broadcast flag. -/
inductive SideEffect where
  | audio (level : Int)
  | chat (message : ChatMessage) (broadcast : Bool)
deriving Repr, DecidableEq

/-- Combined component state: the hook state (queue plus current item) and the
processedRef set of dispatched timestamps. -/
structure NotificationState where
  hook : LevelUpState
  processed : List Nat
deriving Repr, DecidableEq

/-- Dispatch effect of LevelUpNotification.tsx.  Nothing happens without a
current item or when its timestamp was already processed; otherwise the
timestamp is recorded first, then the audio branch runs (skipped when the
effective sfx volume, defaulting to 1, is not positive) and then the chat
branch.  A throwing capability call aborts the effect with that error after
the timestamp was recorded; the hook state is never touched. -/
def dispatchStep (audio : Option AudioCap) (chat : Option ChatCap)
    (chatId : String) (now : Nat) (s : NotificationState) :
    NotificationState × Except String (List SideEffect) :=
  match s.hook.currentLevelUp with
  | none => (s, Except.ok [])
  | some ev =>
    if s.processed.contains ev.timestamp then (s, Except.ok [])
    else
      let s' : NotificationState :=
        { s with processed := ev.timestamp :: s.processed }
      let audioStep : Except String (List SideEffect) :=
        match audio with
        | none => Except.ok []
        | some a =>
          let sfxVolume := a.sfxGainValue.getD 1
          if sfxVolume > 0 then
            match a.readyResult with
            | Except.ok _ => Except.ok [SideEffect.audio ev.newLevel]
            | Except.error e => Except.error e
          else Except.ok []
      match audioStep with
      | Except.error e => (s', Except.error e)
      | Except.ok fx =>
        match chat with
        | none => (s', Except.ok fx)
        | some c =>
          match c.addResult with
          | Except.ok _ =>
            (s', Except.ok
              (fx ++ [SideEffect.chat (mkLevelUpChatMessage ev chatId now) false]))
          | Except.error e => (s', Except.error e)

/-- Periodic cleanup effect of LevelUpNotification.tsx: delete processed
timestamps older than the 60000 ms retention window. -/
def purgeProcessed (now : Nat) (processed : List Nat) : List Nat :=
  processed.filter (fun ts => !decide (now - ts > 60000))

/-- Chat messages among the observable effects, with their broadcast flags. -/
def chatEffects : List SideEffect → List (ChatMessage × Bool)
  | [] => []
  | SideEffect.chat m b :: rest => (m, b) :: chatEffects rest
  | SideEffect.audio _ :: rest => chatEffects rest

/-- Fanfare levels among the observable effects. -/
def audioEffects : List SideEffect → List Int
  | [] => []
  | SideEffect.audio l :: rest => l :: audioEffects rest
  | SideEffect.chat _ _ :: rest => audioEffects rest

theorem dispatchStep_hook (a : Option AudioCap) (c : Option ChatCap)
    (id : String) (now : Nat) (s : NotificationState) :
    (dispatchStep a c id now s).1.hook = s.hook := by
  simp only [dispatchStep]
  repeat' split
  all_goals rfl

theorem dispatchStep_processed_mem (a : Option AudioCap) (c : Option ChatCap)
    (id : String) (now : Nat) (s : NotificationState) (ev : LevelUpEvent)
    (hcur : s.hook.currentLevelUp = some ev) :
    ev.timestamp ∈ (dispatchStep a c id now s).1.processed := by
  simp only [dispatchStep, hcur]
  by_cases h : s.processed.contains ev.timestamp
  · simp only [h, if_true]
    exact List.elem_iff.mp h
  · simp only [h, Bool.false_eq_true, if_false]
    repeat' split
    all_goals simp

theorem dispatchStep_of_processed (a : Option AudioCap) (c : Option ChatCap)
    (id : String) (now : Nat) (s : NotificationState) (ev : LevelUpEvent)
    (hcur : s.hook.currentLevelUp = some ev)
    (h : ev.timestamp ∈ s.processed) :
    dispatchStep a c id now s = (s, Except.ok []) := by
  have hb : s.processed.contains ev.timestamp = true := List.elem_iff.mpr h
  simp only [dispatchStep, hcur, hb, if_true]

theorem purgeProcessed_keeps_recent {now ts : Nat} (h : now - ts ≤ 60000)
    {p : List Nat} (hmem : ts ∈ p) : ts ∈ purgeProcessed now p := by
  unfold purgeProcessed
  refine List.mem_filter.mpr ⟨hmem, ?_⟩
  simp only [Bool.not_eq_true', decide_eq_false_iff_not]
  omega

/-- C2: at-most-once side-effect dispatch.  Once the dispatcher has run for a
current item, any later dispatch for an item with the same timestamp fires
nothing and changes nothing, and this persists across cleanup purges run
within the 60000 ms retention window. -/
theorem dispatch_at_most_once
    (a1 a2 : Option AudioCap) (c1 c2 : Option ChatCap)
    (id1 id2 : String) (n1 n2 : Nat)
    (s s2 : NotificationState) (ev ev' : LevelUpEvent)
    (hcur : s.hook.currentLevelUp = some ev)
    (hproc : s2.processed = (dispatchStep a1 c1 id1 n1 s).1.processed)
    (hcur2 : s2.hook.currentLevelUp = some ev')
    (hts : ev'.timestamp = ev.timestamp) :
    dispatchStep a2 c2 id2 n2 s2 = (s2, Except.ok []) ∧
    ∀ now, now - ev.timestamp ≤ 60000 →
      dispatchStep a2 c2 id2 n2
          { s2 with processed := purgeProcessed now s2.processed } =
        ({ s2 with processed := purgeProcessed now s2.processed },
          Except.ok []) := by
  have hmem : ev'.timestamp ∈ s2.processed := by
    rw [hts, hproc]
    exact dispatchStep_processed_mem a1 c1 id1 n1 s ev hcur
  refine ⟨dispatchStep_of_processed a2 c2 id2 n2 s2 ev' hcur2 hmem, ?_⟩
  intro now hnow
  have hmem' : ev'.timestamp ∈ purgeProcessed now s2.processed :=
    purgeProcessed_keeps_recent (by rw [hts]; exact hnow) hmem
  exact dispatchStep_of_processed a2 c2 id2 n2 _ ev' hcur2 hmem'

/-- Witness for C2: a concrete re-delivery of timestamp 1000 after a first
dispatch fires nothing, also after a purge at time 2000. -/
theorem dispatch_at_most_once_witness :
    dispatchStep none none "m2" 5
        ⟨⟨[], some ⟨"woodcutting", 9, 10, 1000⟩⟩, [1000]⟩ =
      (⟨⟨[], some ⟨"woodcutting", 9, 10, 1000⟩⟩, [1000]⟩, Except.ok []) ∧
    dispatchStep none none "m2" 5
        ⟨⟨[], some ⟨"woodcutting", 9, 10, 1000⟩⟩, purgeProcessed 2000 [1000]⟩ =
      (⟨⟨[], some ⟨"woodcutting", 9, 10, 1000⟩⟩, purgeProcessed 2000 [1000]⟩,
        Except.ok []) := by
  have h := dispatch_at_most_once none none none none "m1" "m2" 0 5
    ⟨⟨[], some ⟨"woodcutting", 9, 10, 1000⟩⟩, []⟩
    ⟨⟨[], some ⟨"woodcutting", 9, 10, 1000⟩⟩, [1000]⟩
    ⟨"woodcutting", 9, 10, 1000⟩ ⟨"woodcutting", 9, 10, 1000⟩
    rfl rfl rfl rfl
  exact ⟨h.1, h.2 2000 (by decide)⟩

/-- C3 counterexample: the dispatch effect has no try block, so a throwing
chat.add propagates out of the dispatcher: for a concrete current item and a
chat capability whose add call throws, the dispatch result is the propagated
error, not a swallowed and logged success. -/
theorem dispatch_failure_not_swallowed_cex :
    (dispatchStep none (some ⟨Except.error "chat add failed"⟩) "m1" 1000
        ⟨⟨[], some ⟨"woodcutting", 9, 10, 1000⟩⟩, []⟩).2 =
      Except.error "chat add failed" := rfl

/-- C3 amended: a capability-call failure is not caught by the dispatcher (it
propagates to the caller uncaught and unlogged); however the queue and
current-item state machine is left unchanged — the dispatcher never mutates
the hook state — and the timestamp of the current item is recorded in the
processed set before any capability call, so the dispatcher does not stall
or retry regardless of the outcome. -/
theorem dispatch_failure_leaves_state (a : Option AudioCap) (c : Option ChatCap)
    (id : String) (now : Nat) (s : NotificationState) :
    (dispatchStep a c id now s).1.hook = s.hook ∧
    (∀ ev, s.hook.currentLevelUp = some ev →
      ev.timestamp ∈ (dispatchStep a c id now s).1.processed) :=
  ⟨dispatchStep_hook a c id now s,
   fun ev h => dispatchStep_processed_mem a c id now s ev h⟩

/-- Witness for the amended C3: at the failing-chat counterexample input, the
hook state is untouched and the timestamp is marked processed. -/
theorem dispatch_failure_leaves_state_witness :
    (dispatchStep none (some ⟨Except.error "chat add failed"⟩) "m1" 1000
        ⟨⟨[], some ⟨"woodcutting", 9, 10, 1000⟩⟩, []⟩).1.hook =
      ⟨[], some ⟨"woodcutting", 9, 10, 1000⟩⟩ ∧
    (1000 : Nat) ∈ (dispatchStep none (some ⟨Except.error "chat add failed"⟩)
        "m1" 1000 ⟨⟨[], some ⟨"woodcutting", 9, 10, 1000⟩⟩, []⟩).1.processed :=
  ⟨(dispatch_failure_leaves_state none (some ⟨Except.error "chat add failed"⟩)
      "m1" 1000 ⟨⟨[], some ⟨"woodcutting", 9, 10, 1000⟩⟩, []⟩).1,
   (dispatch_failure_leaves_state none (some ⟨Except.error "chat add failed"⟩)
      "m1" 1000 ⟨⟨[], some ⟨"woodcutting", 9, 10, 1000⟩⟩, []⟩).2
      ⟨"woodcutting", 9, 10, 1000⟩ rfl⟩

/-- C7: for every new current item dispatched with a working chat capability
(and an audio branch that does not throw first), the dispatcher appends
exactly one chat message: the congratulations text built with capitalizeSkill
and the new level, with an empty sender and the broadcast flag false. -/
theorem dispatch_chat_message
    (a : Option AudioCap) (c : ChatCap) (id : String) (now : Nat)
    (s : NotificationState) (ev : LevelUpEvent)
    (hcur : s.hook.currentLevelUp = some ev)
    (hnew : ev.timestamp ∉ s.processed)
    (hchat : c.addResult = Except.ok ())
    (haudio : ∀ x, a = some x → 0 < x.sfxGainValue.getD 1 →
      x.readyResult = Except.ok ()) :
    ∃ fx, (dispatchStep a (some c) id now s).2 = Except.ok fx ∧
      chatEffects fx = [(mkLevelUpChatMessage ev id now, false)] ∧
      (mkLevelUpChatMessage ev id now).«from» = "" ∧
      (mkLevelUpChatMessage ev id now).body =
        "Congratulations! You\x27ve advanced a " ++ capitalizeSkill ev.skill ++
          " level. You are now level " ++ toString ev.newLevel ++ "." := by
  have hb : s.processed.contains ev.timestamp = false := by
    rw [Bool.eq_false_iff]
    intro hcon
    exact hnew (List.elem_iff.mp hcon)
  simp only [dispatchStep, hcur, hb, Bool.false_eq_true, if_false]
  cases a with
  | none =>
    exact ⟨[SideEffect.chat (mkLevelUpChatMessage ev id now) false],
      by simp [hchat], rfl, rfl, rfl⟩
  | some x =>
    by_cases hv : 0 < x.sfxGainValue.getD 1
    · have hr := haudio x rfl hv
      exact ⟨[SideEffect.audio ev.newLevel,
          SideEffect.chat (mkLevelUpChatMessage ev id now) false],
        by simp [hv, hr, hchat], rfl, rfl, rfl⟩
    · exact ⟨[SideEffect.chat (mkLevelUpChatMessage ev id now) false],
        by simp [hv, hchat], rfl, rfl, rfl⟩

/-- Witness for C7: a woodcutting level 10 item yields exactly the message
Congratulations plus Woodcutting and level 10, unsent sender, local only. -/
theorem dispatch_chat_message_witness :
    (∃ fx, (dispatchStep none (some ⟨Except.ok ()⟩) "m4" 1500
        ⟨⟨[], some ⟨"woodcutting", 9, 10, 1000⟩⟩, []⟩).2 = Except.ok fx ∧
      chatEffects fx =
        [(mkLevelUpChatMessage ⟨"woodcutting", 9, 10, 1000⟩ "m4" 1500, false)] ∧
      (mkLevelUpChatMessage ⟨"woodcutting", 9, 10, 1000⟩ "m4" 1500).«from» = "" ∧
      (mkLevelUpChatMessage ⟨"woodcutting", 9, 10, 1000⟩ "m4" 1500).body =
        "Congratulations! You\x27ve advanced a " ++ capitalizeSkill "woodcutting" ++
          " level. You are now level " ++ toString (10 : Int) ++ ".") ∧
    (mkLevelUpChatMessage ⟨"woodcutting", 9, 10, 1000⟩ "m4" 1500).body =
      "Congratulations! You\x27ve advanced a Woodcutting level. You are now level 10." :=
  ⟨dispatch_chat_message none ⟨Except.ok ()⟩ "m4" 1500
      ⟨⟨[], some ⟨"woodcutting", 9, 10, 1000⟩⟩, []⟩ ⟨"woodcutting", 9, 10, 1000⟩
      rfl (List.not_mem_nil _) rfl (fun x hx => nomatch hx),
   by decide⟩

/-- C10: with an audio capability present and a working chat side, a missing
sfx gain value (optional chain yields none) defaults the effective volume to
1, so the fanfare is scheduled; an explicit gain of 0 or less suppresses the
audio dispatch; an explicit positive gain schedules it. -/
theorem dispatch_audio_volume
    (x : AudioCap) (c : Option ChatCap) (id : String) (now : Nat)
    (s : NotificationState) (ev : LevelUpEvent)
    (hcur : s.hook.currentLevelUp = some ev)
    (hnew : ev.timestamp ∉ s.processed)
    (hchat : ∀ ch, c = some ch → ch.addResult = Except.ok ()) :
    (x.sfxGainValue = none → x.readyResult = Except.ok () →
      ∃ fx, (dispatchStep (some x) c id now s).2 = Except.ok fx ∧
        audioEffects fx = [ev.newLevel]) ∧
    (∀ v, x.sfxGainValue = some v → v ≤ 0 →
      ∃ fx, (dispatchStep (some x) c id now s).2 = Except.ok fx ∧
        audioEffects fx = []) ∧
    (∀ v, x.sfxGainValue = some v → 0 < v → x.readyResult = Except.ok () →
      ∃ fx, (dispatchStep (some x) c id now s).2 = Except.ok fx ∧
        audioEffects fx = [ev.newLevel]) := by
  have hb : s.processed.contains ev.timestamp = false := by
    rw [Bool.eq_false_iff]
    intro hcon
    exact hnew (List.elem_iff.mp hcon)
  refine ⟨?_, ?_, ?_⟩
  · intro hg hr
    simp only [dispatchStep, hcur, hb, Bool.false_eq_true, if_false]
    cases c with
    | none =>
      exact ⟨[SideEffect.audio ev.newLevel], by simp [hg, hr], rfl⟩
    | some ch =>
      exact ⟨[SideEffect.audio ev.newLevel,
          SideEffect.chat (mkLevelUpChatMessage ev id now) false],
        by simp [hg, hr, hchat ch rfl], rfl⟩
  · intro v hg hv
    have hnp : ¬ (0 : Rat) < x.sfxGainValue.getD 1 := by
      rw [hg]
      simpa using not_lt.mpr hv
    simp only [dispatchStep, hcur, hb, Bool.false_eq_true, if_false]
    cases c with
    | none => exact ⟨[], by simp [hnp], rfl⟩
    | some ch =>
      exact ⟨[SideEffect.chat (mkLevelUpChatMessage ev id now) false],
        by simp [hnp, hchat ch rfl], rfl⟩
  · intro v hg hv hr
    have hp : (0 : Rat) < x.sfxGainValue.getD 1 := by
      rw [hg]
      simpa using hv
    simp only [dispatchStep, hcur, hb, Bool.false_eq_true, if_false]
    cases c with
    | none => exact ⟨[SideEffect.audio ev.newLevel], by simp [hp, hr], rfl⟩
    | some ch =>
      exact ⟨[SideEffect.audio ev.newLevel,
          SideEffect.chat (mkLevelUpChatMessage ev id now) false],
        by simp [hp, hr, hchat ch rfl], rfl⟩

/-- Witness for C10: with no readable gain value the fanfare for level 10 is
scheduled; with an explicit gain of 0 it is suppressed. -/
theorem dispatch_audio_volume_witness :
    (∃ fx, (dispatchStep (some ⟨none, Except.ok ()⟩) none "m5" 2000
        ⟨⟨[], some ⟨"woodcutting", 9, 10, 1000⟩⟩, []⟩).2 = Except.ok fx ∧
      audioEffects fx = [(10 : Int)]) ∧
    (∃ fx, (dispatchStep (some ⟨some 0, Except.ok ()⟩) none "m5" 2000
        ⟨⟨[], some ⟨"woodcutting", 9, 10, 1000⟩⟩, []⟩).2 = Except.ok fx ∧
      audioEffects fx = []) :=
  ⟨(dispatch_audio_volume ⟨none, Except.ok ()⟩ none "m5" 2000
      ⟨⟨[], some ⟨"woodcutting", 9, 10, 1000⟩⟩, []⟩ ⟨"woodcutting", 9, 10, 1000⟩
      rfl (List.not_mem_nil _) (fun _ h => nomatch h)).1 rfl rfl,
   (dispatch_audio_volume ⟨some 0, Except.ok ()⟩ none "m5" 2000
      ⟨⟨[], some ⟨"woodcutting", 9, 10, 1000⟩⟩, []⟩ ⟨"woodcutting", 9, 10, 1000⟩
      rfl (List.not_mem_nil _) (fun _ h => nomatch h)).2.1 0 rfl le_rfl⟩

/-- Platform info record returned by the native bridge. -/
structure PlatformInfo where
  os : String
  arch : String
  family : String
deriving Repr, DecidableEq

/-- Model of the runtime environment seen by the Tauri integration module:
whether window.__TAURI__ exists, whether each dynamic plugin import succeeds,
and the outcomes of the underlying native calls. -/
structure TauriEnv where
  tauriPresent : Bool
  coreAvailable : Bool
  eventAvailable : Bool
  openerAvailable : Bool
  invokePlatformInfo : Except String PlatformInfo
  listenDeepLink : Except String Unit
  openUrl : String → Except String Unit

/-- isTauriApp: window exists and window.__TAURI__ is set. -/
def isTauriApp (env : TauriEnv) : Bool :=
  env.tauriPresent

/-- getTauriCore: null outside the native app or when the dynamic import
fails; otherwise the invoke primitive, modelled by the outcome of the one
invoke this module makes. -/
def getTauriCore (env : TauriEnv) : Option (Except String PlatformInfo) :=
  if !isTauriApp env then none
  else if env.coreAvailable then some env.invokePlatformInfo else none

/-- getTauriEvent: null outside the native app or when the dynamic import
fails; otherwise the listen primitive, modelled by its outcome. -/
def getTauriEvent (env : TauriEnv) : Option (Except String Unit) :=
  if !isTauriApp env then none
  else if env.eventAvailable then some env.listenDeepLink else none

/-- getTauriOpener: null outside the native app or when the dynamic import
fails; otherwise the openUrl primitive. -/
def getTauriOpener (env : TauriEnv) : Option (String → Except String Unit) :=
  if !isTauriApp env then none
  else if env.openerAvailable then some env.openUrl else none

/-- getPlatformInfo: null without the core API; on an invoke failure the error
is logged and null returned. -/
def getPlatformInfo (env : TauriEnv) : Option PlatformInfo :=
  match getTauriCore env with
  | none => none
  | some r =>
    match r with
    | Except.ok p => some p
    | Except.error _ => none

/-- onDeepLink: null without the event API; some () stands for the returned
unsubscribe function; a listen failure is logged and null returned. -/
def onDeepLink (env : TauriEnv) : Option Unit :=
  match getTauriEvent env with
  | none => none
  | some r =>
    match r with
    | Except.ok _ => some ()
    | Except.error _ => none

/-- Observable browser-level effects of openExternalUrl. -/
inductive BrowserEffect where
  | windowOpen (url target : String)
  | nativeOpen (url : String)
deriving Repr, DecidableEq

/-- openExternalUrl: without the native opener it falls back to
window.open(url, _blank) and returns true; with the opener it returns true on
success and false when the native call fails (the error is logged). -/
def openExternalUrl (env : TauriEnv) (url : String) :
    Bool × List BrowserEffect :=
  match getTauriOpener env with
  | none => (true, [BrowserEffect.windowOpen url "_blank"])
  | some op =>
    match op url with
    | Except.ok _ => (true, [BrowserEffect.nativeOpen url])
    | Except.error _ => (false, [BrowserEffect.nativeOpen url])

/-- C9 counterexample: in a no-native environment openExternalUrl reports
success (true), not an absent or failure result: it falls back to
window.open. -/
theorem openExternalUrl_no_native_cex :
    openExternalUrl
        ⟨false, false, false, false, Except.error "no native",
          Except.error "no native", fun _ => Except.error "no native"⟩
        "https://example.com" =
      (true, [BrowserEffect.windowOpen "https://example.com" "_blank"]) := rfl

/-- C9 amended: when the native layer is not present, getPlatformInfo and
onDeepLink do return null, but openExternalUrl instead falls back to
window.open in the browser and reports success (true) for every url; it only
reports failure when a present native opener throws. -/
theorem platform_services_no_native (env : TauriEnv) (url : String)
    (h : env.tauriPresent = false) :
    getPlatformInfo env = none ∧
    onDeepLink env = none ∧
    openExternalUrl env url =
      (true, [BrowserEffect.windowOpen url "_blank"]) ∧
    ∀ e, env.tauriPresent = true → env.openerAvailable = true →
      env.openUrl url = Except.error e →
      (openExternalUrl env url).1 = false := by
  refine ⟨?_, ?_, ?_, ?_⟩
  · simp [getPlatformInfo, getTauriCore, isTauriApp, h]
  · simp [onDeepLink, getTauriEvent, isTauriApp, h]
  · simp [openExternalUrl, getTauriOpener, isTauriApp, h]
  · intro e htrue
    rw [h] at htrue
    exact absurd htrue (by simp)

/-- Witness for the amended C9: a concrete no-native environment yields null
platform info, null deep-link subscription, and a successful window.open
fallback. -/
theorem platform_services_no_native_witness :
    getPlatformInfo
        ⟨false, false, false, false, Except.error "no native",
          Except.error "no native", fun _ => Except.error "no native"⟩ = none ∧
    onDeepLink
        ⟨false, false, false, false, Except.error "no native",
          Except.error "no native", fun _ => Except.error "no native"⟩ = none ∧
    openExternalUrl
        ⟨false, false, false, false, Except.error "no native",
          Except.error "no native", fun _ => Except.error "no native"⟩
        "https://example.com" =
      (true, [BrowserEffect.windowOpen "https://example.com" "_blank"]) := by
  have h := platform_services_no_native
    ⟨false, false, false, false, Except.error "no native",
      Except.error "no native", fun _ => Except.error "no native"⟩
    "https://example.com" rfl
  exact ⟨h.1, h.2.1, h.2.2.1⟩

/-- Split a character list at the first occurrence of a separator; none when
the separator does not occur. -/
def splitFirst (sep : Char) : List Char → Option (List Char × List Char)
  | [] => none
  | c :: rest =>
    if c = sep then some ([], rest)
    else
      match splitFirst sep rest with
      | none => none
      | some (a, b) => some (c :: a, b)

/-- Characters before the first occurrence of a stop character. -/
def takeUntil (stop : Char) : List Char → List Char
  | [] => []
  | c :: rest => if c = stop then [] else c :: takeUntil stop rest

/-- Split a character list on every occurrence of a separator. -/
def splitOnChar (sep : Char) : List Char → List (List Char)
  | [] => [[]]
  | c :: rest =>
    if c = sep then [] :: splitOnChar sep rest
    else
      match splitOnChar sep rest with
      | [] => [[c]]
      | g :: gs => (c :: g) :: gs

/-- One query pair: name before the first equals sign, value after it; a piece
without an equals sign is a name with an empty value. -/
def parseQueryPair (piece : List Char) : String × String :=
  match splitFirst '=' piece with
  | none => (⟨piece⟩, "")
  | some (n, v) => (⟨n⟩, ⟨v⟩)

/-- Query pairs of a raw query: split on ampersands, drop empty pieces. -/
def parseQueryParams (q : List Char) : List (String × String) :=
  ((splitOnChar '&' q).filter (fun piece => !piece.isEmpty)).map parseQueryPair

/-- A URL scheme: a letter followed by letters, digits, plus, minus or dot. -/
def isValidScheme : List Char → Bool
  | [] => false
  | c :: rest =>
    c.isAlpha && rest.all (fun d => d.isAlphanum || d == '+' || d == '-' || d == '.')

/-- Modelled from the platform: the WHATWG URL constructor, restricted to what
parseOAuthCallback observes.  An input parses when it starts with a valid
scheme followed by a colon; the query is the part after the first question
mark and before any fragment, split into name-value pairs (percent-decoding
is not modelled).  An input without a valid scheme makes the constructor
throw, modelled as none. -/
def jsParseURLQuery (url : String) : Option (List (String × String)) :=
  match splitFirst ':' url.data with
  | none => none
  | some (scheme, rest) =>
    if isValidScheme scheme then
      match splitFirst '?' (takeUntil '#' rest) with
      | none => some []
      | some (_, query) => some (parseQueryParams query)
    else none

/-- searchParams.get: the value of the first pair with the given name. -/
def getSearchParam (params : List (String × String)) (name : String) :
    Option String :=
  match params.find? (fun p => p.1 == name) with
  | none => none
  | some p => some p.2

/-- Structured result record of parseOAuthCallback. -/
structure OAuthCallbackResult where
  code : Option String
  state : Option String
  error : Option String
deriving Repr, DecidableEq

/-- parseOAuthCallback from the Tauri integration module: parse the URL and
read the code, state and error query parameters; when the URL constructor
throws, catch and return the structured Invalid URL record. -/
def parseOAuthCallback (url : String) : OAuthCallbackResult :=
  match jsParseURLQuery url with
  | some params =>
    ⟨getSearchParam params "code", getSearchParam params "state",
      getSearchParam params "error"⟩
  | none => ⟨none, none, some "Invalid URL"⟩

/-- C8: parseOAuthCallback never throws and always returns a structured
record: when the URL parses it returns exactly the code, state and error
query parameters (none for each absent one), and when the URL constructor
throws it returns the Invalid URL record instead of propagating. -/
theorem parseOAuthCallback_total (url : String) :
    (∀ params, jsParseURLQuery url = some params →
      parseOAuthCallback url =
        ⟨getSearchParam params "code", getSearchParam params "state",
          getSearchParam params "error"⟩) ∧
    (jsParseURLQuery url = none →
      parseOAuthCallback url = ⟨none, none, some "Invalid URL"⟩) := by
  constructor
  · intro params h
    simp [parseOAuthCallback, h]
  · intro h
    simp [parseOAuthCallback, h]

/-- Witness for C8: a well-formed callback URL yields its code and state with
no error, and an unparseable input yields the structured Invalid URL record. -/
theorem parseOAuthCallback_total_witness :
    parseOAuthCallback "https://game.example/cb?code=abc&state=xyz" =
      ⟨some "abc", some "xyz", none⟩ ∧
    parseOAuthCallback "not a url" = ⟨none, none, some "Invalid URL"⟩ :=
  ⟨(parseOAuthCallback_total "https://game.example/cb?code=abc&state=xyz").1
      [("code", "abc"), ("state", "xyz")] (by decide),
   (parseOAuthCallback_total "not a url").2 (by decide)⟩
